import Mathlib

/-!
Verification of the spending-lifecycle reconciliation engine of this
repository against its natural-language specification.

The source under scrutiny is `src/spending_lifecycle.js`, which holds two
concatenated versions of the `SpendingLifecycleTracker` class plus a small
helper:

* the current tracker (lines 1-588) consumes the preprocessed
  `spending_lifecycle_data.json` records, filters them (`getFilteredData`,
  lines 101-127), groups them per TAS and availability period
  (`combineData`, lines 201-243), rolls them up per view
  (`aggregateByView`, lines 262-307) and renders rate columns
  (`updateTable`, lines 357-360; `toggleTASDetails`, lines 486-496);
* a legacy tracker (lines 588-997) that loads the raw apportionment CSV
  and a raw USAspending account-balances CSV and merges them itself
  (`combineData`, lines 762-808) via `parseTAS` (lines 245-260 and
  810-825, identical).

All of these are embedded below as pure functions: JS numbers become ℚ,
fields that may be absent or unparseable (`undefined`, `parseFloat` giving
`NaN`) become `Option ℚ`, and the `x || 0` defaulting becomes
`Option.getD 0`.  JS `Map` grouping preserves insertion order; it is
embedded as an association-list fold that updates in place or appends.
-/

/-- The five structural parts `parseTAS` extracts from a Treasury Account
Symbol string (`src/spending_lifecycle.js` lines 251-257). -/
structure TASParts where
  agency : String
  beginYear : String
  endYear : String
  mainAccount : String
  subAccount : String
deriving DecidableEq

/-- Whether position `i` of `cs` starts a character `c`. -/
def charAt (cs : List Char) (i : ℕ) (c : Char) : Bool :=
  decide (cs.get? i = some c)

/-- Whether the `n` characters of `cs` starting at position `i` all exist
and are decimal digits. -/
def digitsAt (cs : List Char) (i n : ℕ) : Bool :=
  (List.range n).all fun k => ((cs.get? (i + k)).map Char.isDigit).getD false

/-- Whether the regular expression
`(\d\x7b3\x7d)-(\d\x7b4\x7d)\/(\d\x7b4\x7d)-(\d\x7b4\x7d)-(\d\x7b3\x7d)`
of `parseTAS` (line 249) matches `cs` starting at position `i`: every
quantifier in the pattern is exact, so a match at `i` is a fixed 22-character
shape.  The JS regex is not anchored, so the engine tries successive start
positions. -/
def tasMatchAt (cs : List Char) (i : ℕ) : Bool :=
  digitsAt cs i 3 && charAt cs (i + 3) '-' &&
  digitsAt cs (i + 4) 4 && charAt cs (i + 8) '/' &&
  digitsAt cs (i + 9) 4 && charAt cs (i + 13) '-' &&
  digitsAt cs (i + 14) 4 && charAt cs (i + 18) '-' &&
  digitsAt cs (i + 19) 3

/-- The leftmost start position at which the `parseTAS` pattern matches, as
the JS regex engine finds it. -/
def findMatchPos (cs : List Char) : Option ℕ :=
  (List.range cs.length).find? fun i => tasMatchAt cs i

/-- The `n`-character substring of `cs` starting at `i`, as a string (a JS
capture group of the match). -/
def sliceStr (cs : List Char) (i n : ℕ) : String :=
  String.mk ((cs.drop i).take n)

/-- `parseTAS` on a present string argument (`src/spending_lifecycle.js`
lines 245-260): the empty string is falsy in JS and returns null at line
246; otherwise the unanchored regex is searched and the five capture groups
of the leftmost match are returned, or null when there is no match. -/
def parseTASstr (s : String) : Option TASParts :=
  if s = "" then none
  else
    match findMatchPos s.data with
    | none => none
    | some i =>
        some ⟨sliceStr s.data i 3, sliceStr s.data (i + 4) 4,
              sliceStr s.data (i + 9) 4, sliceStr s.data (i + 14) 4,
              sliceStr s.data (i + 19) 3⟩

/-- `parseTAS` including the null/undefined argument case of line 246. -/
def parseTAS : Option String → Option TASParts
  | none => none
  | some s => parseTASstr s

/-- The parts `parseTAS` returns when the whole string is the five-part
pattern (a match at position 0). -/
def wholeParts (s : String) : TASParts :=
  ⟨sliceStr s.data 0 3, sliceStr s.data 4 4, sliceStr s.data 9 4,
   sliceStr s.data 14 4, sliceStr s.data 19 3⟩

/-- The specification's notion of a well-formed identifier string: the
string as a whole is `AGENCY-BEGINYEAR/ENDYEAR-MAIN-SUB` with fixed-width
numeric components, hence exactly 22 characters matching the grammar from
its first character.  Stated from the spec's words to compare with the
code's unanchored search. -/
def specFivePart (s : String) : Bool :=
  (s.length == 22) && tasMatchAt s.data 0

/-- The numeric value of a digit string such as a parsed year. -/
def yearVal (s : String) : ℕ :=
  s.data.foldl (fun n c => 10 * n + (c.toNat - 48)) 0

/-- Modelled from the spec: the period classifier (section 4.2).  Its
implementation lives in the preprocessing scripts
(`scripts/processing/create_spending_lifecycle_data.py` and relatives),
which are not part of the staged source; the rule is the spec's: the
literal token `X` is no-year, a string containing the separator `/` is
multi-year, anything else is annual. -/
def classifyPeriod (s : String) : String :=
  if s = "X" then "no-year"
  else if s.data.contains '/' then "multi-year"
  else "annual"

/-! ## Insertion-order grouping, as a JS Map builds it -/

/-- One step of grouping rows into a JS `Map`: when a group with the row's
key exists it is updated in place with `add`, otherwise a fresh group
(`init` then `add`, since the JS code always falls through to the `+=` or
assignment lines) is appended, preserving insertion order. -/
def upsert {α β : Type} (keyr : α → String) (keyg : β → String)
    (init : α → β) (add : β → α → β) (gs : List β) (r : α) : List β :=
  if gs.any fun g => keyg g = keyr r then
    gs.map fun g => if keyg g = keyr r then add g r else g
  else gs ++ [add (init r) r]

/-- Grouping a whole row list into a JS `Map`, read back in insertion
order (`Array.from(map.values())`). -/
def accumBy {α β : Type} (keyr : α → String) (keyg : β → String)
    (init : α → β) (add : β → α → β) (l : List α) : List β :=
  l.foldl (upsert keyr keyg init add) []

/-- The keys a `Map` holds after inserting `l` on top of existing keys
`ks`: first occurrences in order. -/
def keyFold : List String → List String → List String
  | ks, [] => ks
  | ks, k :: rest => keyFold (if k ∈ ks then ks else ks ++ [k]) rest

/-! ## The current tracker (spending_lifecycle.js lines 1-588) -/

/-- One record of `processed_data/spending_lifecycle/spending_lifecycle_data.json`
as the current tracker reads it (fields referenced at lines 104-125 and
208-233).  Numeric fields may be absent (`undefined`), hence `Option ℚ`;
the code defaults them with `|| 0`. -/
structure LifecycleRecord where
  tas : String
  availability_period : String
  bureau : String
  account_name : String
  fund_type : String
  availability_type : String
  budget_category : String
  apportionment_fy : String
  apportionment_amount : Option ℚ
  obligations : Option ℚ
  outlays : Option ℚ
  budget_authority : Option ℚ
deriving DecidableEq

/-- The tracker's filter state (lines 8-12): fiscal year, availability
type and component, each either a value or the string `all`. -/
structure TrackerFilters where
  fiscalYear : String
  availabilityType : String
  component : String
deriving DecidableEq

/-- JS `String.prototype.replace('-', '')`: only the first occurrence of
the hyphen is removed. -/
def removeFirstDash : List Char → List Char
  | [] => []
  | c :: cs => if c = '-' then cs else c :: removeFirstDash cs

/-- The normalization `getFilteredData` applies to both sides of the
availability-type comparison (lines 112-113):
`(x || '').toLowerCase().replace('-', '')`. -/
def normAvail (s : String) : String :=
  String.mk (removeFirstDash (s.data.map Char.toLower))

/-- The predicate of `getFilteredData` (lines 103-126): a record passes
when each non-`all` filter matches; the availability-type comparison uses
the record's stored `availability_type` label, normalized, never the
`availability_period` string. -/
def keepRecord (f : TrackerFilters) (r : LifecycleRecord) : Bool :=
  (f.fiscalYear == "all" || r.apportionment_fy == f.fiscalYear) &&
  (f.availabilityType == "all" ||
    normAvail r.availability_type == normAvail f.availabilityType) &&
  (f.component == "all" || r.bureau == f.component)

/-- `getFilteredData` (lines 101-127). -/
def getFilteredData (f : TrackerFilters) (data : List LifecycleRecord) :
    List LifecycleRecord :=
  data.filter (keepRecord f)

/-- One aggregated TAS-level entry of `combineData`'s `tasByKey` map
(lines 212-233). -/
structure TasData where
  tas : String
  tas_full : String
  availability_period : String
  bureau : String
  account : String
  fund_type : String
  availability_type : String
  budget_category : String
  apportionment : ℚ
  obligations : ℚ
  outlays : ℚ
  budget_authority : ℚ
deriving DecidableEq

/-- The map key of `combineData` line 210: the string concatenation of
`tas`, the character `|` and `availability_period`. -/
def lcKey (r : LifecycleRecord) : String :=
  r.tas ++ "|" ++ r.availability_period

/-- The key a stored group stands under: its `tas` and
`availability_period` come from the group's first record, so this is the
map key it was inserted under. -/
def tasKey (t : TasData) : String :=
  t.tas ++ "|" ++ t.availability_period

/-- The fresh group of `combineData` lines 213-226 (all totals zero). -/
def initTas (r : LifecycleRecord) : TasData :=
  { tas := r.tas
    tas_full := r.tas ++ "-" ++ r.availability_period
    availability_period := r.availability_period
    bureau := r.bureau
    account := r.account_name
    fund_type := r.fund_type
    availability_type := r.availability_type
    budget_category := r.budget_category
    apportionment := 0
    obligations := 0
    outlays := 0
    budget_authority := 0 }

/-- The `+=` lines 229-233 of `combineData`, with the `|| 0` defaults. -/
def addTas (t : TasData) (r : LifecycleRecord) : TasData :=
  { t with
    apportionment := t.apportionment + r.apportionment_amount.getD 0
    obligations := t.obligations + r.obligations.getD 0
    outlays := t.outlays + r.outlays.getD 0
    budget_authority := t.budget_authority + r.budget_authority.getD 0 }

/-- The TAS-level aggregation of `combineData` (lines 205-237): the
`tasByKey` map read back in insertion order (`this.tasData`). -/
def tasAggregate (l : List LifecycleRecord) : List TasData :=
  accumBy lcKey tasKey initTas addTas l

/-- The grouping key of `aggregateByView` (lines 265-285), switching on
the view string with `bureau` as the default case. -/
def viewKey (view : String) (row : TasData) : String :=
  if view = "component" then row.bureau
  else if view = "account" then row.bureau ++ " - " ++ row.account
  else if view = "tas" then row.tas_full ++ " - " ++ row.account
  else if view = "fund_type" then row.fund_type
  else if view = "availability_type" then row.availability_type
  else row.bureau

/-- One rollup row of `aggregateByView` (lines 287-296). -/
structure AggRow where
  name : String
  apportionment : ℚ
  obligations : ℚ
  outlays : ℚ
  count : ℕ
  bureau : String
  availability_type : String
deriving DecidableEq

/-- The fresh rollup row of lines 288-296. -/
def initAgg (view : String) (row : TasData) : AggRow :=
  { name := viewKey view row
    apportionment := 0
    obligations := 0
    outlays := 0
    count := 0
    bureau := row.bureau
    availability_type := row.availability_type }

/-- The `+=` lines 299-303. -/
def addAgg (a : AggRow) (row : TasData) : AggRow :=
  { a with
    apportionment := a.apportionment + row.apportionment
    obligations := a.obligations + row.obligations
    outlays := a.outlays + row.outlays
    count := a.count + 1 }

/-- Stable insertion of a row into a list sorted by descending
apportionment; equal keys keep the earlier row first, as the stable JS
`Array.prototype.sort` does with the comparator
`(a, b) => b.apportionment - a.apportionment` (line 306). -/
def insertByApportionment (x : AggRow) : List AggRow → List AggRow
  | [] => [x]
  | y :: ys =>
      if y.apportionment ≤ x.apportionment then x :: y :: ys
      else y :: insertByApportionment x ys

/-- The stable descending sort of line 306. -/
def sortByApportionmentDesc : List AggRow → List AggRow
  | [] => []
  | x :: xs => insertByApportionment x (sortByApportionmentDesc xs)

/-- `aggregateByView` (lines 262-307). -/
def aggregateByView (view : String) (data : List TasData) : List AggRow :=
  sortByApportionmentDesc
    (accumBy (viewKey view) AggRow.name (initAgg view) addAgg data)

/-- `combineData` of the current tracker (lines 201-243): filter, group
per TAS and availability period, then roll up by the current view. -/
def combineData (f : TrackerFilters) (view : String)
    (data : List LifecycleRecord) : List AggRow :=
  aggregateByView view (tasAggregate (getFilteredData f data))

/-! ## Rate computations (lines 357-360 and 486-496) -/

/-- The obligation rate of `toggleTASDetails` lines 486-488:
`apportionment > 0 ? obligations / apportionment : 0`. -/
def obligationRate (apportionment obligations : ℚ) : ℚ :=
  if 0 < apportionment then obligations / apportionment else 0

/-- The execution rate guard pattern of line 360 and line 496 without the
percent scaling: `obligations > 0 ? outlays / obligations : 0`. -/
def executionRate (obligations outlays : ℚ) : ℚ :=
  if 0 < obligations then outlays / obligations else 0

/-- The obligation percentage of `updateTable` line 358. -/
def obligPercent (apportionment obligations : ℚ) : ℚ :=
  if 0 < apportionment then obligations / apportionment * 100 else 0

/-! ## The legacy tracker (spending_lifecycle.js lines 588-997) -/

/-- One row of `data/dhs_tas_aggregated_with_fund_types.csv` as the legacy
tracker's `combineData` reads it (fields referenced at lines 764-784).
The `amount` column is a CSV string fed to `parseFloat`; an unparseable
value gives `NaN`, modelled as `none`, and the code defaults it with
`|| 0`. -/
structure ApportionmentRow where
  fiscal_year : String
  bureau : String
  tas : String
  account : String
  fund_type : String
  budget_category : String
  amount : Option ℚ
deriving DecidableEq

/-- The legacy tracker's filter state used in `combineData`
(lines 765-766). -/
structure LegacyFilters where
  fiscalYear : String
  component : String
deriving DecidableEq

/-- One row of the USAspending account-balances CSV as the legacy merge
reads it (lines 789-800).  The code reads only the treasury account symbol
and the three amount columns; any reporting-year or reporting-period
column of the file is never consulted. -/
structure UsaRow where
  treasury_account_symbol : String
  obligations_incurred : Option ℚ
  gross_outlay_amount : Option ℚ
  budget_authority_appropriated_amount : Option ℚ
deriving DecidableEq

/-- One entry of the legacy `apportionmentByTAS` map (lines 774-784).
`obligations`, `outlays` and `budgetAuthority` are absent (`undefined`)
until a USAspending row is merged onto the entry at lines 798-800. -/
structure JoinedRecord where
  tas : String
  bureau : String
  account : String
  fund_type : String
  budget_category : String
  apportionment : ℚ
  obligations : Option ℚ
  outlays : Option ℚ
  budgetAuthority : Option ℚ
deriving DecidableEq

/-- The apportionment filter of lines 764-768: keep rows of the selected
fiscal year, and of the selected component unless it is `all`. -/
def filteredApportionment (f : LegacyFilters) (rows : List ApportionmentRow) :
    List ApportionmentRow :=
  rows.filter fun row =>
    (row.fiscal_year == f.fiscalYear) &&
    (f.component == "all" || row.bureau == f.component)

/-- The fresh map entry of lines 775-782. -/
def initJoined (row : ApportionmentRow) : JoinedRecord :=
  { tas := row.tas
    bureau := row.bureau
    account := row.account
    fund_type := row.fund_type
    budget_category := row.budget_category
    apportionment := 0
    obligations := none
    outlays := none
    budgetAuthority := none }

/-- Line 784: `apportionment += parseFloat(row.amount) || 0`. -/
def addJoined (g : JoinedRecord) (row : ApportionmentRow) : JoinedRecord :=
  { g with apportionment := g.apportionment + row.amount.getD 0 }

/-- The `apportionmentByTAS` map of lines 771-785, keyed by the raw `tas`
column and read back in insertion order. -/
def apportionmentByTAS (rows : List ApportionmentRow) : List JoinedRecord :=
  accumBy ApportionmentRow.tas JoinedRecord.tas initJoined addJoined rows

/-- Line 794: the simplified identifier `agency-mainAccount` the legacy
merge joins on. -/
def simpleTAS (p : TASParts) : String :=
  p.agency ++ "-" ++ p.mainAccount

/-- The merge of one USAspending row (lines 789-801): parse its treasury
account symbol, skip the row when parsing fails, and otherwise overwrite
(`=`, not `+=`) the obligations, outlays and budget authority of the map
entry whose `tas` equals the simplified identifier, when there is one. -/
def applyUsaRow (gs : List JoinedRecord) (row : UsaRow) : List JoinedRecord :=
  match parseTASstr row.treasury_account_symbol with
  | none => gs
  | some p =>
      gs.map fun g =>
        if g.tas = simpleTAS p then
          { g with
            obligations := some (row.obligations_incurred.getD 0)
            outlays := some (row.gross_outlay_amount.getD 0)
            budgetAuthority := some (row.budget_authority_appropriated_amount.getD 0) }
        else g

/-- The full USAspending merge loop of lines 788-803. -/
def mergeUsa (gs : List JoinedRecord) (usa : List UsaRow) : List JoinedRecord :=
  usa.foldl applyUsaRow gs

/-- The record set the legacy `combineData` (lines 762-808) builds before
its per-view rollup: the filtered apportionment aggregate, merged with the
USAspending data when that data is present (`if (this.usaspendingData)`,
line 788). -/
def combinedRecords (f : LegacyFilters) (app : List ApportionmentRow)
    (usa : Option (List UsaRow)) : List JoinedRecord :=
  match usa with
  | none => apportionmentByTAS (filteredApportionment f app)
  | some u => mergeUsa (apportionmentByTAS (filteredApportionment f app)) u

/-! ## The apportionment-side aggregator (spec section 4.3) -/

/-- An ApportionmentRecord of the spec's data model (section 3): full
account identifier, fiscal year, amount, approval date and iteration. -/
structure ApportionmentRecord where
  account : String
  fiscal_year : ℕ
  amount : ℚ
  approval_date : String
  iteration : ℕ
deriving DecidableEq

/-- Whether some record of `recs` supersedes `r`: same account and fiscal
year with a strictly higher iteration number. -/
def supersededBy (recs : List ApportionmentRecord)
    (r : ApportionmentRecord) : Bool :=
  recs.any fun s =>
    decide (s.account = r.account ∧ s.fiscal_year = r.fiscal_year ∧
            r.iteration < s.iteration)

/-- Modelled from the spec: the iteration-supersession step of the
apportionment-side aggregator (section 4.3; implemented by
`scripts/processing/aggregate_dhs_budget_by_tas.py`, which is not part of
the staged source — the README documents it as taking the latest iteration
for each unique combination).  Within each (account, fiscal_year) group
only records no other record of the group supersedes are kept. -/
def keepLatestIteration (recs : List ApportionmentRecord) :
    List ApportionmentRecord :=
  recs.filter fun r => !(supersededBy recs r)

/-- Modelled from the spec: the aggregated apportionment total of one
account — the sum of the kept (highest-iteration) amounts for that
account. -/
def apportionmentTotal (recs : List ApportionmentRecord) (acct : String) : ℚ :=
  (((keepLatestIteration recs).filter fun r => r.account == acct).map
    ApportionmentRecord.amount).sum

/-! ## Helper lemmas: keys of an insertion-order grouping -/

theorem upsert_map_keyg {α β : Type} (keyr : α → String) (keyg : β → String)
    (init : α → β) (add : β → α → β)
    (hadd : ∀ g r, keyg (add g r) = keyg g)
    (hinit : ∀ r, keyg (add (init r) r) = keyr r)
    (gs : List β) (r : α) :
    (upsert keyr keyg init add gs r).map keyg =
      if keyr r ∈ gs.map keyg then gs.map keyg else gs.map keyg ++ [keyr r] := by
  have hcond : (gs.any fun g => decide (keyg g = keyr r)) = true ↔
      keyr r ∈ gs.map keyg := by
    rw [List.any_eq_true]
    constructor
    · rintro ⟨g, hg, hdec⟩
      exact List.mem_map.mpr ⟨g, hg, of_decide_eq_true hdec⟩
    · intro h
      rcases List.mem_map.mp h with ⟨g, hg, he⟩
      exact ⟨g, hg, decide_eq_true he⟩
  unfold upsert
  by_cases h : keyr r ∈ gs.map keyg
  · rw [if_pos (hcond.mpr h), if_pos h, List.map_map]
    apply List.map_congr_left
    intro g _
    by_cases hg : keyg g = keyr r
    · simp [hg, hadd]
    · simp [hg]
  · rw [if_neg (fun hc => h (hcond.mp hc)), if_neg h, List.map_append,
        List.map_singleton, hinit]

theorem foldl_upsert_map_keyg {α β : Type} (keyr : α → String)
    (keyg : β → String) (init : α → β) (add : β → α → β)
    (hadd : ∀ g r, keyg (add g r) = keyg g)
    (hinit : ∀ r, keyg (add (init r) r) = keyr r) :
    ∀ (l : List α) (gs : List β),
      ((l.foldl (upsert keyr keyg init add) gs).map keyg) =
        keyFold (gs.map keyg) (l.map keyr)
  | [], gs => rfl
  | r :: l, gs => by
      rw [List.foldl_cons, List.map_cons, keyFold,
        foldl_upsert_map_keyg keyr keyg init add hadd hinit l,
        upsert_map_keyg keyr keyg init add hadd hinit]

theorem accumBy_map_keyg {α β : Type} (keyr : α → String) (keyg : β → String)
    (init : α → β) (add : β → α → β)
    (hadd : ∀ g r, keyg (add g r) = keyg g)
    (hinit : ∀ r, keyg (add (init r) r) = keyr r) (l : List α) :
    (accumBy keyr keyg init add l).map keyg = keyFold [] (l.map keyr) :=
  foldl_upsert_map_keyg keyr keyg init add hadd hinit l []

theorem keyFold_nodup : ∀ (l ks : List String), ks.Nodup → (keyFold ks l).Nodup
  | [], _, h => h
  | k :: rest, ks, h => by
      rw [keyFold]
      apply keyFold_nodup rest
      by_cases hk : k ∈ ks
      · rwa [if_pos hk]
      · rw [if_neg hk]
        simp [List.nodup_append, h, List.disjoint_singleton, hk]

theorem mem_keyFold : ∀ (l ks : List String) (x : String),
    x ∈ keyFold ks l ↔ x ∈ ks ∨ x ∈ l
  | [], ks, x => by simp [keyFold]
  | k :: rest, ks, x => by
      rw [keyFold, mem_keyFold rest]
      by_cases hk : k ∈ ks
      · rw [if_pos hk]
        constructor
        · rintro (h | h)
          · exact Or.inl h
          · exact Or.inr (List.mem_cons_of_mem _ h)
        · rintro (h | h)
          · exact Or.inl h
          · rcases List.mem_cons.mp h with rfl | h
            · exact Or.inl hk
            · exact Or.inr h
      · rw [if_neg hk]
        simp [List.mem_append, List.mem_cons]
        tauto

theorem keyFold_length_card (ks : List String) :
    (keyFold [] ks).length = ks.toFinset.card := by
  have hnd := keyFold_nodup ks [] List.nodup_nil
  have hfin : (keyFold [] ks).toFinset = ks.toFinset := by
    ext x
    simp [List.mem_toFinset, mem_keyFold]
  rw [← List.toFinset_card_of_nodup hnd, hfin]

theorem applyUsaRow_map_tas (gs : List JoinedRecord) (row : UsaRow) :
    (applyUsaRow gs row).map JoinedRecord.tas = gs.map JoinedRecord.tas := by
  unfold applyUsaRow
  cases parseTASstr row.treasury_account_symbol with
  | none => rfl
  | some p =>
      rw [List.map_map]
      apply List.map_congr_left
      intro g _
      by_cases hg : g.tas = simpleTAS p <;> simp [hg]

theorem mergeUsa_map_tas : ∀ (usa : List UsaRow) (gs : List JoinedRecord),
    (mergeUsa gs usa).map JoinedRecord.tas = gs.map JoinedRecord.tas
  | [], gs => rfl
  | row :: usa, gs => by
      rw [mergeUsa, List.foldl_cons, ← mergeUsa, mergeUsa_map_tas usa,
        applyUsaRow_map_tas]

theorem combinedRecords_map_tas (f : LegacyFilters)
    (app : List ApportionmentRow) (usa : Option (List UsaRow)) :
    (combinedRecords f app usa).map JoinedRecord.tas =
      keyFold [] ((filteredApportionment f app).map ApportionmentRow.tas) := by
  cases usa with
  | none =>
      exact accumBy_map_keyg ApportionmentRow.tas JoinedRecord.tas initJoined
        addJoined (fun g r => rfl) (fun r => rfl) _
  | some u =>
      rw [combinedRecords, mergeUsa_map_tas]
      exact accumBy_map_keyg ApportionmentRow.tas JoinedRecord.tas initJoined
        addJoined (fun g r => rfl) (fun r => rfl) _

/-! ## Helper lemmas: the identifier parser -/

theorem findMatchPos_eq_zero (cs : List Char) (hne : cs ≠ [])
    (h : tasMatchAt cs 0 = true) : findMatchPos cs = some 0 := by
  cases cs with
  | nil => exact absurd rfl hne
  | cons c cs' =>
      unfold findMatchPos
      rw [List.length_cons, List.range_succ_eq_map]
      exact List.find?_cons_of_pos _ h

theorem data_ne_nil_of_ne_empty (s : String) (h : s ≠ "") : s.data ≠ [] := by
  intro hd
  apply h
  cases s with
  | mk d => cases hd; rfl

theorem parseTASstr_of_spec (s : String) (h : specFivePart s = true) :
    parseTASstr s = some (wholeParts s) := by
  have hparts : s.length = 22 ∧ tasMatchAt s.data 0 = true := by
    have := h
    unfold specFivePart at this
    rw [Bool.and_eq_true, beq_iff_eq] at this
    exact this
  have hne : s ≠ "" := by
    intro he
    rw [he] at hparts
    exact absurd hparts.1 (by decide)
  unfold parseTASstr
  rw [if_neg hne,
    findMatchPos_eq_zero s.data (data_ne_nil_of_ne_empty s hne) hparts.2]
  rfl

theorem parseTASstr_of_no_match (s : String)
    (h : ∀ i, tasMatchAt s.data i = false) : parseTASstr s = none := by
  unfold parseTASstr
  by_cases he : s = ""
  · rw [if_pos he]
  · rw [if_neg he]
    have : findMatchPos s.data = none := by
      apply List.find?_eq_none.mpr
      intro i _
      simp [h i]
    rw [this]

theorem digitsAt_spec (cs : List Char) (i n : ℕ) (h : digitsAt cs i n = true) :
    ∀ k, k < n → ∃ c, cs.get? (i + k) = some c ∧ c.isDigit = true := by
  intro k hk
  have hall := (List.all_eq_true.mp h) k (List.mem_range.mpr hk)
  cases hc : cs.get? (i + k) with
  | none => rw [hc] at hall; exact absurd hall (by decide)
  | some c =>
      refine ⟨c, rfl, ?_⟩
      rw [hc] at hall
      simpa using hall

theorem digitsAt_slice (cs : List Char) (i n : ℕ)
    (h : digitsAt cs i n = true) :
    ((cs.drop i).take n).length = n ∧
      ((cs.drop i).take n).all Char.isDigit = true := by
  have hspec := digitsAt_spec cs i n h
  have hlen : ((cs.drop i).take n).length = n := by
    cases n with
    | zero => simp
    | succ m =>
        obtain ⟨c, hc, _⟩ := hspec m (Nat.lt_succ_self m)
        have hm : i + m < cs.length := by
          by_contra hge
          rw [List.get?_eq_none.mpr (Nat.le_of_not_lt hge)] at hc
          cases hc
        rw [List.length_take, List.length_drop]
        omega
  refine ⟨hlen, ?_⟩
  rw [List.all_eq_true]
  intro c hcmem
  obtain ⟨k, hk⟩ := List.mem_iff_get?.mp hcmem
  have hkn : k < n := by
    by_contra hge
    rw [List.get?_eq_none.mpr (by rw [hlen]; exact Nat.le_of_not_lt hge)] at hk
    cases hk
  have hdrop : (cs.drop i).get? k = some c := by
    rw [List.get?_eq_getElem?] at hk ⊢
    rwa [List.getElem?_take, if_pos hkn] at hk
  have hcs : cs.get? (i + k) = some c := by
    rw [List.get?_eq_getElem?] at hdrop ⊢
    rwa [List.getElem?_drop] at hdrop
  obtain ⟨c', hc', hd⟩ := hspec k hkn
  rw [hcs] at hc'
  cases hc'
  exact hd

theorem parseTASstr_inv (s : String) (p : TASParts)
    (hp : parseTASstr s = some p) :
    ∃ i, tasMatchAt s.data i = true ∧
      p = ⟨sliceStr s.data i 3, sliceStr s.data (i + 4) 4,
           sliceStr s.data (i + 9) 4, sliceStr s.data (i + 14) 4,
           sliceStr s.data (i + 19) 3⟩ := by
  unfold parseTASstr at hp
  by_cases he : s = ""
  · rw [if_pos he] at hp
    cases hp
  · rw [if_neg he] at hp
    cases hfind : findMatchPos s.data with
    | none => rw [hfind] at hp; cases hp
    | some i =>
        rw [hfind] at hp
        refine ⟨i, ?_, ?_⟩
        · exact List.find?_some hfind
        · cases hp
          rfl

/-! ## Claim theorems -/

set_option maxRecDepth 8000 in
/-- C1: evaluating the legacy tracker's reconciliation at the claim's
scenario — one apportionment row for simplified TAS `070-0530` and three
USAspending rows for the multi-year account `070-2023/2025-0530-000`, one
per reporting fiscal year, each carrying obligations 10 and outlays 5 —
yields a reconciled record with `obligations = 10` and `outlays = 5`: the
assignment at lines 798-799 overwrites instead of summing, so the total is
the last reporting year's figure, not the 30 the claim requires. -/
theorem claim_C1_overwrite_not_sum :
    combinedRecords ⟨"2023", "all"⟩
        [⟨"2023", "CBP", "070-0530", "Operations and Support",
          "General fund", "Discretionary", some 1000⟩]
        (some [⟨"070-2023/2025-0530-000", some 10, some 5, some 0⟩,
               ⟨"070-2023/2025-0530-000", some 10, some 5, some 0⟩,
               ⟨"070-2023/2025-0530-000", some 10, some 5, some 0⟩]) =
      [⟨"070-0530", "CBP", "Operations and Support", "General fund",
        "Discretionary", 1000, some 10, some 5, some 0⟩] ∧
    (10 : ℚ) ≠ 30 := by
  exact ⟨by with_unfolding_all decide, by decide⟩

set_option maxRecDepth 8000 in
/-- C2: evaluating the legacy tracker's reconciliation at two USAspending
rows whose full identifiers differ (availability years 2023/2023 versus
2024/2026) but share agency `070` and main account `0530`: both map to
the same simplified key, line 794, so they are conflated onto one
reconciled record, the second overwriting the first — the join key is the
SimplifiedIdentifier, not the full AccountIdentifier. -/
theorem claim_C2_simplified_join_conflates :
    combinedRecords ⟨"2023", "all"⟩
        [⟨"2023", "CBP", "070-0530", "Operations and Support",
          "General fund", "Discretionary", some 1000⟩]
        (some [⟨"070-2023/2023-0530-000", some 200, some 50, some 0⟩,
               ⟨"070-2024/2026-0530-000", some 300, some 150, some 0⟩]) =
      [⟨"070-0530", "CBP", "Operations and Support", "General fund",
        "Discretionary", 1000, some 300, some 150, some 0⟩] ∧
    parseTASstr "070-2023/2023-0530-000" ≠
      parseTASstr "070-2024/2026-0530-000" ∧
    (parseTASstr "070-2023/2023-0530-000").map simpleTAS =
      (parseTASstr "070-2024/2026-0530-000").map simpleTAS := by
  exact ⟨by with_unfolding_all decide, by decide, by decide⟩

/-- C3 counterexample: an AccountIdentifier present only on the execution
side — a parseable USAspending row with no apportionment counterpart —
appears zero times in the legacy reconciliation output, not exactly once,
refuting the full-outer-join claim at a concrete input. -/
theorem claim_C3_execution_row_dropped :
    combinedRecords ⟨"2023", "all"⟩ []
        (some [⟨"070-2023/2023-0530-000", some 200, some 50, some 0⟩]) =
      [] ∧
    parseTASstr "070-2023/2023-0530-000" ≠ none := by
  exact ⟨by decide, by decide⟩

/-- C3 amended: the legacy reconciliation is a left join on the
apportionment side — its output holds exactly one record per distinct
`tas` key of the filtered apportionment rows (no duplicates), and no
other: execution-only keys never appear; apportionment-only records keep
absent execution figures, defaulted to zero downstream; no match status
is produced. -/
theorem claim_C3_left_join_keys :
    ∀ (f : LegacyFilters) (app : List ApportionmentRow)
      (usa : Option (List UsaRow)),
      ((combinedRecords f app usa).map JoinedRecord.tas).Nodup ∧
      ∀ k : String,
        k ∈ (combinedRecords f app usa).map JoinedRecord.tas ↔
          k ∈ (filteredApportionment f app).map ApportionmentRow.tas := by
  intro f app usa
  rw [combinedRecords_map_tas]
  refine ⟨keyFold_nodup _ _ List.nodup_nil, ?_⟩
  intro k
  rw [mem_keyFold]
  simp

/-- C4: in the spec-modelled apportionment aggregator a record is kept
exactly when no record of its (account, fiscal_year) group carries a
strictly higher iteration, and on the claim's concrete input — iteration 1
with amount 5 and iteration 2 with amount 8 for the same key — the
aggregated total is 8, not 5 + 8. -/
theorem claim_C4_latest_iteration_wins :
    (∀ (recs : List ApportionmentRecord) (r : ApportionmentRecord),
        r ∈ keepLatestIteration recs ↔
          r ∈ recs ∧ ∀ s ∈ recs, s.account = r.account →
            s.fiscal_year = r.fiscal_year → s.iteration ≤ r.iteration) ∧
    apportionmentTotal
        [⟨"070-2023/2023-0530-000", 2023, 5, "2023-01-15", 1⟩,
         ⟨"070-2023/2023-0530-000", 2023, 8, "2023-03-02", 2⟩]
        "070-2023/2023-0530-000" = 8 ∧
    (8 : ℚ) ≠ 5 + 8 := by
  refine ⟨?_, by with_unfolding_all decide, by with_unfolding_all decide⟩
  intro recs r
  rw [keepLatestIteration, List.mem_filter, Bool.not_eq_true']
  rw [← Bool.not_eq_true, supersededBy, List.any_eq_true]
  simp only [decide_eq_true_eq, not_exists, not_and, Nat.not_lt]

/-- C5 counterexample: two lifecycle records with the same availability
period `X` (spec-classified no-year) but different stored
`availability_type` labels are treated differently by the no-year filter:
the one labelled `annual` is dropped.  The classification the filter uses
is therefore not a function of the availability-period string — the
stored upstream label is trusted. -/
theorem claim_C5_label_not_recomputed :
    getFilteredData ⟨"all", "no-year", "all"⟩
        [⟨"070-0530", "X", "CBP", "Operations and Support", "General fund",
          "no-year", "Discretionary", "2025", some 1, some 0, some 0,
          some 0⟩,
         ⟨"070-0530", "X", "CBP", "Operations and Support", "General fund",
          "annual", "Discretionary", "2025", some 1, some 0, some 0,
          some 0⟩] =
      [⟨"070-0530", "X", "CBP", "Operations and Support", "General fund",
        "no-year", "Discretionary", "2025", some 1, some 0, some 0,
        some 0⟩] ∧
    classifyPeriod "X" = "no-year" := by
  exact ⟨by decide, by decide⟩

/-- C5 amended: the spec's classification rule holds of the spec-modelled
classifier, but the tracker's filter depends only on the record's stored
fiscal year, availability-type label and bureau — records agreeing on
those three fields filter identically whatever their availability-period
strings — so components trust the upstream label rather than recomputing
the classification. -/
theorem claim_C5_label_only_filtering :
    ∀ (f : TrackerFilters) (r1 r2 : LifecycleRecord),
      r1.apportionment_fy = r2.apportionment_fy →
      r1.availability_type = r2.availability_type →
      r1.bureau = r2.bureau →
      (keepRecord f r1 = keepRecord f r2 ∧
       classifyPeriod "X" = "no-year" ∧
       classifyPeriod "2023" = "annual" ∧
       classifyPeriod "2023/2025" = "multi-year") := by
  intro f r1 r2 h1 h2 h3
  refine ⟨?_, by decide, by decide, by decide⟩
  unfold keepRecord
  rw [h1, h2, h3]

/-- C5 witness: the filter invariance at two concrete records sharing the
label `no-year` but with different availability periods. -/
theorem claim_C5_label_only_filtering_inst :
    keepRecord ⟨"all", "no-year", "all"⟩
        ⟨"070-0530", "X", "CBP", "Operations and Support", "General fund",
         "no-year", "Discretionary", "2025", some 1, some 0, some 0,
         some 0⟩ =
      keepRecord ⟨"all", "no-year", "all"⟩
        ⟨"070-0540", "2023/2025", "CBP", "Federal Assistance",
         "Trust fund", "no-year", "Mandatory", "2025", some 2, some 0,
         some 0, some 0⟩ :=
  (claim_C5_label_only_filtering ⟨"all", "no-year", "all"⟩ _ _
    rfl rfl rfl).1

/-- C6 counterexample: a reconciled record with negative obligations (a
net deobligation) and positive apportionment gets a negative obligation
rate, refuting the unconditional `0 <= obligation_rate`; and with a
negative apportionment total the code returns 0 where the claimed
division would not be 0, so the rate is not the division either. -/
theorem claim_C6_negative_rate :
    (tasAggregate
        [⟨"070-0530", "2025", "CBP", "Operations and Support",
          "General fund", "annual", "Discretionary", "2025", some 1,
          some (-1), some 0, some 0⟩]).map
        (fun t => obligationRate t.apportionment t.obligations) = [-1] ∧
    ¬(0 ≤ obligationRate 1 (-1)) ∧
    obligationRate (-2) 1 = 0 ∧ (1 : ℚ) / (-2) ≠ 0 := by
  refine ⟨by with_unfolding_all decide, by with_unfolding_all decide,
    by with_unfolding_all decide, by with_unfolding_all decide⟩

/-- C6 amended: the rate computations guard the division with a strictly
positive denominator test and return 0 otherwise, so they are total (a
zero denominator yields 0, never an undefined value), equal the claimed
division whenever the denominator is positive, and are nonnegative
whenever the numerator is — the unconditional nonnegativity of the claim
holds only under that sign hypothesis. -/
theorem claim_C6_guarded_rates :
    ∀ (apportionment obligations outlays : ℚ),
      0 ≤ obligations → 0 ≤ outlays →
      (obligationRate 0 obligations = 0 ∧
       executionRate 0 outlays = 0 ∧
       0 ≤ obligationRate apportionment obligations ∧
       0 ≤ executionRate obligations outlays ∧
       (0 < apportionment →
         obligationRate apportionment obligations =
           obligations / apportionment) ∧
       obligPercent apportionment obligations =
         obligationRate apportionment obligations * 100) := by
  intro app oblig outl hob hout
  refine ⟨by simp [obligationRate], by simp [executionRate], ?_, ?_, ?_, ?_⟩
  · unfold obligationRate
    split
    · exact div_nonneg hob (by linarith)
    · exact le_refl 0
  · unfold executionRate
    split
    · exact div_nonneg hout (by linarith)
    · exact le_refl 0
  · intro h
    rw [obligationRate, if_pos h]
  · unfold obligPercent obligationRate
    split
    · rfl
    · rw [zero_mul]

/-- C6 witness: the guarded rates at concrete values, every hypothesis
discharged. -/
theorem claim_C6_guarded_rates_inst :
    obligationRate 4 2 = 2 / 4 ∧ 0 ≤ obligationRate 4 2 ∧
    obligationRate 0 2 = 0 := by
  have h := claim_C6_guarded_rates 4 2 1 (by norm_num) (by norm_num)
  have h0 := claim_C6_guarded_rates 0 2 1 (by norm_num) (by norm_num)
  exact ⟨h.2.2.2.2.1 (by norm_num), h.2.2.1, h0.1⟩

/-- C7 counterexample: a string that is not of the five-part form (it has
stray characters around the pattern) is still accepted by `parseTAS`,
because the JS regex is unanchored — so `parseTAS` does not return null
on every string that fails the five-part pattern. -/
theorem claim_C7_unanchored_accepts :
    specFivePart "x070-2024/2024-0112-000y" = false ∧
    parseTASstr "x070-2024/2024-0112-000y" =
      some ⟨"070", "2024", "2024", "0112", "000"⟩ := by
  exact ⟨by decide, by decide⟩

/-- C7 amended: `parseTAS` never throws (it is a total function), returns
null on a null or empty input, returns the five structural parts of the
leftmost matching 22-character substring whenever one exists — in
particular, whenever the whole string is the five-part pattern it returns
that string's parts — and returns null when no position of the string
matches the pattern. -/
theorem claim_C7_substring_semantics :
    parseTAS none = none ∧ parseTASstr "" = none ∧
    (∀ s : String, specFivePart s = true →
      parseTASstr s = some (wholeParts s)) ∧
    (∀ s : String, (∀ i, tasMatchAt s.data i = false) →
      parseTASstr s = none) :=
  ⟨rfl, rfl, parseTASstr_of_spec, parseTASstr_of_no_match⟩

/-- C7 witness: the well-formed identifier of the source comment at line
248 parses to its five parts. -/
theorem claim_C7_substring_semantics_inst :
    parseTASstr "070-2024/2024-0112-000" =
      some (wholeParts "070-2024/2024-0112-000") ∧
    wholeParts "070-2024/2024-0112-000" =
      ⟨"070", "2024", "2024", "0112", "000"⟩ :=
  ⟨claim_C7_substring_semantics.2.2.1 _ (by decide), by decide⟩

/-- C8 counterexample: `parseTAS` accepts an identifier whose begin year
2025 exceeds its end year 2023 — the invariant `BEGINYEAR <= ENDYEAR` is
not enforced by the normalizer. -/
theorem claim_C8_order_not_enforced :
    parseTASstr "070-2025/2023-0112-000" =
      some ⟨"070", "2025", "2023", "0112", "000"⟩ ∧
    ¬(yearVal "2025" ≤ yearVal "2023") := by
  exact ⟨by decide, by decide⟩

/-- C8 amended: what the normalizer does guarantee of every accepted
identifier is structural — the begin and end years are both four-character
digit strings; their numeric order is not checked. -/
theorem claim_C8_digit_years :
    ∀ (s : String) (p : TASParts), parseTASstr s = some p →
      p.beginYear.length = 4 ∧ p.beginYear.data.all Char.isDigit = true ∧
      p.endYear.length = 4 ∧ p.endYear.data.all Char.isDigit = true := by
  intro s p hp
  obtain ⟨i, hm, rfl⟩ := parseTASstr_inv s p hp
  rw [tasMatchAt] at hm
  simp only [Bool.and_eq_true] at hm
  have hbeg : digitsAt s.data (i + 4) 4 = true := by tauto
  have hend : digitsAt s.data (i + 9) 4 = true := by tauto
  have hb := digitsAt_slice s.data (i + 4) 4 hbeg
  have he := digitsAt_slice s.data (i + 9) 4 hend
  exact ⟨hb.1, hb.2, he.1, he.2⟩

/-- C8 witness: the digit-year guarantee at the concrete well-formed
identifier, the parse hypothesis discharged by evaluation. -/
theorem claim_C8_digit_years_inst :
    (TASParts.mk "070" "2024" "2024" "0112" "000").beginYear.length = 4 ∧
    (TASParts.mk "070" "2024" "2024" "0112"
        "000").beginYear.data.all Char.isDigit = true ∧
    (TASParts.mk "070" "2024" "2024" "0112" "000").endYear.length = 4 ∧
    (TASParts.mk "070" "2024" "2024" "0112"
        "000").endYear.data.all Char.isDigit = true :=
  claim_C8_digit_years "070-2024/2024-0112-000"
    ⟨"070", "2024", "2024", "0112", "000"⟩ (by decide)

/-- C9: the aggregation and combination pipeline of the current tracker is
deterministic — on equal input collections (same records in the same
order, same filters and view) it produces equal output collections, record
for record and in the same order; the embedding is a pure function of its
inputs, as the JS is: Map grouping follows insertion order and the sort is
the stable sort of a deterministic comparator. -/
theorem claim_C9_deterministic :
    ∀ (f : TrackerFilters) (view : String) (d1 d2 : List LifecycleRecord),
      d1 = d2 → combineData f view d1 = combineData f view d2 := by
  intro f view d1 d2 h
  rw [h]

/-- C9 witness: two runs on a concrete one-record collection agree. -/
theorem claim_C9_deterministic_inst :
    combineData ⟨"2025", "all", "all"⟩ "component"
        [⟨"070-0530", "2023/2025", "CBP", "Operations and Support",
          "General fund", "multi-year", "Discretionary", "2025", some 100,
          some 10, some 5, some 100⟩] =
      combineData ⟨"2025", "all", "all"⟩ "component"
        [⟨"070-0530", "2023/2025", "CBP", "Operations and Support",
          "General fund", "multi-year", "Discretionary", "2025", some 100,
          some 10, some 5, some 100⟩] :=
  claim_C9_deterministic ⟨"2025", "all", "all"⟩ "component" _ _ rfl

set_option maxRecDepth 4000 in
/-- C10: the TAS-level aggregation merges records exactly by the
concatenated string key `tas ++ pipe ++ availability_period`: the output
has one entry per distinct concatenated key; and on the concrete records
with `tas = A|B, period = C` and `tas = A, period = B|C` — distinct
(tas, period) pairs whose concatenations collide — the two records are
silently merged into one output entry whose totals combine both. -/
theorem claim_C10_concat_key_grouping :
    (∀ l : List LifecycleRecord,
        (tasAggregate l).length = (l.map lcKey).toFinset.card) ∧
    lcKey ⟨"A|B", "C", "CBP", "Operations and Support", "General fund",
        "annual", "Discretionary", "2025", some 5, some 1, some 1,
        some 0⟩ =
      lcKey ⟨"A", "B|C", "CBP", "Operations and Support", "General fund",
        "annual", "Discretionary", "2025", some 7, some 2, some 1,
        some 0⟩ ∧
    (("A|B", "C") : String × String) ≠ ("A", "B|C") ∧
    tasAggregate
        [⟨"A|B", "C", "CBP", "Operations and Support", "General fund",
          "annual", "Discretionary", "2025", some 5, some 1, some 1,
          some 0⟩,
         ⟨"A", "B|C", "CBP", "Operations and Support", "General fund",
          "annual", "Discretionary", "2025", some 7, some 2, some 1,
          some 0⟩] =
      [⟨"A|B", "A|B-C", "C", "CBP", "Operations and Support",
        "General fund", "annual", "Discretionary", 12, 3, 2, 0⟩] := by
  refine ⟨?_, by decide, by decide, by with_unfolding_all decide⟩
  intro l
  have h := accumBy_map_keyg lcKey tasKey initTas addTas
    (fun g r => rfl) (fun r => rfl) l
  have hlen : (tasAggregate l).length =
      ((tasAggregate l).map tasKey).length := (List.length_map _ _).symm
  rw [hlen]
  rw [tasAggregate] at *
  rw [h]
  exact keyFold_length_card _
